import Mathlib

/-!
Verification of the llm-debloat repository (files `debloater.py` and
`debloater_api.py`) against its natural-language specification.

Text is embedded as `List Char` (a Python `str` is a sequence of characters);
every function below is a direct translation of the corresponding Python
source, with the source expression quoted in its doc comment.  Fallible
operations return `Except`/`Option`; file-system effects are explicit state
passing on `FsState`.
-/

namespace Debloat

/-- The backtick character (U+0060). -/
def tick : Char := Char.ofNat 96

/-- The fence marker `\x60\x60\x60` (three backticks), the separator used by
`result.split` in `debloater.py` line 66. -/
def ticks : List Char := [tick, tick, tick]

/-- The opening tag of the regex `r'\x60\x60\x60python(.*?)\x60\x60\x60'`
in `debloater_api.py` line 132. -/
def openTag : List Char := [tick, tick, tick, 'p', 'y', 't', 'h', 'o', 'n']

/-- The character set of Python `lstrip('python\n')` in `debloater.py`
line 66: `lstrip` with an argument removes ALL leading characters that are
members of the set, not the literal word. -/
def pythonChars : List Char := ['p', 'y', 't', 'h', 'o', 'n', '\n']

/-- Python `str.lstrip(chars)`: drop leading characters belonging to `cs`. -/
def lstripSet (cs : List Char) (s : List Char) : List Char :=
  s.dropWhile (fun c => cs.contains c)

/-- Python `str.strip()` with no argument: drop leading and trailing
whitespace. -/
def trimL (s : List Char) : List Char :=
  ((s.dropWhile Char.isWhitespace).reverse.dropWhile Char.isWhitespace).reverse

/-- Index of the first occurrence of `sep` as a contiguous sublist of `s`
(`none` when absent): the position at which Python `str.split(sep)` cuts,
and the start of the leftmost match of a literal pattern in `re.search`. -/
def findSub (sep : List Char) (s : List Char) : Option Nat :=
  match s with
  | [] => if sep.isEmpty then some 0 else none
  | _ :: rest =>
    if sep.isPrefixOf s then some 0
    else (findSub sep rest).map (· + 1)

/-- Source `debloater.py` lines 64-67 (tail of `process_chunk`):

    if '\x60\x60\x60' in result:
        return result.split('\x60\x60\x60')[1].strip().lstrip('python\n')
    return result

`split(sep)[1]` is the segment strictly between the first occurrence of
`sep` and the next non-overlapping occurrence (or the end of the string if
the fence is never closed).  When no fence is present at all, the RAW
response is returned unchanged. -/
def extract_local (result : List Char) : List Char :=
  match findSub ticks result with
  | none => result
  | some i =>
    let rest := result.drop (i + ticks.length)
    let piece :=
      match findSub ticks rest with
      | none => rest
      | some j => rest.take j
    lstripSet pythonChars (trimL piece)

/-- The message of the `ValueError` raised by `extract_code`
(`debloater_api.py` line 136). -/
def extractErrMsg : List Char :=
  "Error: Could not extract code from LLM response".data

/-- Source `debloater_api.py` lines 130-136:

    match = re.search(r'\x60\x60\x60python(.*?)\x60\x60\x60', response_content, re.DOTALL)
    if match:
        return match.group(1).strip()
    else:
        raise ValueError("Error: Could not extract code from LLM response")

`re.search` with this pattern matches at the leftmost occurrence of the
literal `\x60\x60\x60python`; the non-greedy group then ends at the first
subsequent `\x60\x60\x60`.  (If the first occurrence of the opening tag has no
closing marker after it, no occurrence of `\x60\x60\x60` exists beyond it at
all, so no later match start is possible either and the search fails.) -/
def extract_code (response : List Char) : Except (List Char) (List Char) :=
  match findSub openTag response with
  | none => Except.error extractErrMsg
  | some i =>
    let after := response.drop (i + openTag.length)
    match findSub ticks after with
    | none => Except.error extractErrMsg
    | some j => Except.ok (trimL (after.take j))

/-- Python `str.split(c)` for a single-character separator: `"".split(c)`
is `['']`, and every occurrence of `c` cuts. -/
def splitOnChar (sep : Char) : List Char → List (List Char)
  | [] => [[]]
  | c :: rest =>
    match splitOnChar sep rest with
    | [] => [[]]
    | l :: ls => if c = sep then [] :: l :: ls else (c :: l) :: ls

/-- The per-line predicate of `count_loc` (`debloater.py` lines 17-18):
`line.strip() and not line.strip().startswith(('#', '//'))`. -/
def isCountedLine (line : List Char) : Bool :=
  !(trimL line).isEmpty
    && !("#".data.isPrefixOf (trimL line))
    && !("//".data.isPrefixOf (trimL line))

/-- Source `debloater.py` lines 15-18:

    def count_loc(code: str) -> int:
        return sum(1 for line in code.split('\n')
                  if line.strip() and not line.strip().startswith(('#', '//')))
-/
def count_loc (code : List Char) : Nat :=
  ((splitOnChar '\n' code).filter isCountedLine).length

/-- Modelled from the spec (§4.1): "a line counts if, after trimming
surrounding whitespace, it is non-empty and does not start with a
recognized single-line-comment marker (at minimum `#` and `//`)".
Spec-side restatement of the significant-line count, to be compared with
the source-side `count_loc`. -/
def significantLineCount (t : List Char) : Nat :=
  (splitOnChar '\n' t).countP
    (fun l => !(trimL l).isEmpty
      && !("#".data.isPrefixOf (trimL l))
      && !("//".data.isPrefixOf (trimL l)))

/-- Number of entries of Python `f.readlines()` on a file whose whole
content is `s`: zero for the empty file, otherwise one entry per
newline-terminated segment plus a final unterminated segment if present
(`debloater_api.py` lines 27-29 count these entries with `len`). -/
def pyReadlinesCount (s : List Char) : Nat :=
  if s.isEmpty then 0
  else (splitOnChar '\n' s).length - (if s.getLast? = some '\n' then 1 else 0)

/-- Source `debloater_api.py` lines 25-33:

    def count_loc(file_path):
        try:
            with open(file_path, 'r', encoding='utf-8') as file:
                lines = file.readlines()
                return len(lines)
        except FileNotFoundError:
            print(f"File not found: \x7bfile_path\x7d")
        except Exception as e:
            print(f"Error reading file: \x7be\x7d")

The argument is the outcome of reading the file: `Except.error` models any
raised exception (`FileNotFoundError` or other).  Both `except` arms print
and fall through, so the function returns `None` on every failure. -/
def count_loc_api (readResult : Except (List Char) (List Char)) : Option Nat :=
  match readResult with
  | Except.error _ => none
  | Except.ok s => some (pyReadlinesCount s)

/-- Python `range(0, stop, step)` for `step ≥ 1` (`debloater.py` line 83
iterates `range(0, len(original_code), CHUNK_SIZE//2)`).  CPython's range
has exactly `(stop - start + step - 1) // step` elements, the k-th being
`start + k*step`; with `start = 0` these are the multiples of `step` below
`stop`, in increasing order. -/
def pyRange (stop step : Nat) : List Nat :=
  (List.range ((stop + step - 1) / step)).map (· * step)

/-- Source `debloater.py` line 10: `CHUNK_SIZE = 4096`. -/
def CHUNK_SIZE : Nat := 4096

/-- Source `debloater.py` lines 83-86: the chunk of the loop iteration at offset
`i` is the slice `original_code[i:i+CHUNK_SIZE]` (clipped to the text end),
for `i` in `range(0, len(original_code), window/2)`. -/
def chunksOf (code : List Char) (window : Nat) : List (List Char) :=
  (pyRange code.length (window / 2)).map (fun i => (code.drop i).take window)

/-- Python `sep.join(parts)` (`debloater.py` line 91 uses
`'\n'.join(processed_chunks)`). -/
def pyJoin (sep : List Char) : List (List Char) → List Char
  | [] => []
  | [x] => x
  | x :: y :: xs => x ++ sep ++ pyJoin sep (y :: xs)

/-- Failure modes of one run (the exceptions that can escape
`process_file` in either variant). -/
inductive RunErr
  /-- the backend call raised (transport, auth, rate limit, ...) -/
  | backend
  /-- `extract_code` raised its `ValueError` (API variant only) -/
  | extraction
  /-- opening or writing the backup file raised -/
  | backupWrite
  /-- `ZeroDivisionError` from `((original_loc - new_loc)/original_loc)*100` -/
  | divByZero
deriving DecidableEq

/-- The two files the pipeline may write: the target file and its `.bak`
sibling (`none` = the backup file does not exist). -/
structure FsState where
  target : List Char
  backup : Option (List Char)
deriving DecidableEq

/-- The metrics dictionary returned by `process_file`
(`debloater.py` lines 106-110, `debloater_api.py` lines 120-125); the
float `reduction` is modelled exactly over `ℚ`. -/
structure Metrics where
  original_loc : Nat
  new_loc : Nat
  reduction : ℚ
deriving DecidableEq

/-- The expression `((original_loc - new_loc)/original_loc)*100`: Python raises
`ZeroDivisionError` when `original_loc == 0` (modelled as `none`); the
operands are Python `int`s, so the subtraction may be negative. -/
def reductionPct (originalLoc newLoc : Nat) : Option ℚ :=
  if originalLoc = 0 then none
  else some (((originalLoc : ℚ) - (newLoc : ℚ)) / (originalLoc : ℚ) * 100)

/-- The f-string prompt of `debloater.py` lines 51-57, with the chunk text
embedded verbatim. -/
def buildPrompt (original : List Char) : List Char :=
  ("Refactor this code to remove bloat while maintaining functionality.\n" ++
   "Return ONLY the cleaned code wrapped in ").data ++ ticks ++
  " delimiters, no analysis.\n\nOriginal code:\n".data ++
  original ++ "\n\nCleaned code:".data

/-- Source `debloater.py` lines 46-67, `process_chunk`: build the prompt, call the
model (the call may raise, modelled by the abstract `llm` returning
`Except`), then apply the fence extraction of lines 64-67 to the raw
response. -/
def process_chunk (llm : List Char → Except RunErr (List Char))
    (original : List Char) : Except RunErr (List Char) :=
  match llm (buildPrompt original) with
  | Except.error e => Except.error e
  | Except.ok response => Except.ok (extract_local response)

/-- The chunk loop of `debloater.py` lines 83-88: process chunks strictly
in order; the first raised exception propagates at once and no later chunk
is attempted. -/
def runChunks (f : List Char → Except RunErr (List Char)) :
    List (List Char) → Except RunErr (List (List Char))
  | [] => Except.ok []
  | c :: cs =>
    match f c with
    | Except.error e => Except.error e
    | Except.ok r =>
      match runChunks f cs with
      | Except.error e => Except.error e
      | Except.ok rs => Except.ok (r :: rs)

/-- Source `debloater.py` lines 69-110, `process_file`, as explicit state passing
on `FsState`.  `fs.target` is the content read at line 72.  `backupOk`
says whether the backup write of lines 97-98 succeeds; when it fails the
raised exception aborts the run before `f.seek/f.write/f.truncate`
(lines 102-104) run, leaving the target untouched (the backup file itself
may have been created/truncated by `open(..., 'w')`, modelled by the
arbitrary `backupLeft`).  On success the target is overwritten with
`new_code` and only afterwards is the metrics dictionary built, whose
division raises when `original_loc == 0`. -/
def process_file_local (fs : FsState)
    (llm : List Char → Except RunErr (List Char))
    (backupOk : Bool) (backupLeft : Option (List Char)) :
    FsState × Except RunErr Metrics :=
  let originalCode := fs.target
  let originalLoc := count_loc originalCode
  match runChunks (process_chunk llm) (chunksOf originalCode CHUNK_SIZE) with
  | Except.error e => (fs, Except.error e)
  | Except.ok processedChunks =>
    let newCode := pyJoin ['\n'] processedChunks
    let newLoc := count_loc newCode
    if backupOk then
      let fs1 : FsState := { target := newCode, backup := some originalCode }
      match reductionPct originalLoc newLoc with
      | none => (fs1, Except.error RunErr.divByZero)
      | some r => (fs1, Except.ok ⟨originalLoc, newLoc, r⟩)
    else
      ({ fs with backup := backupLeft }, Except.error RunErr.backupWrite)

/-- Source `debloater_api.py` lines 93-128, `process_file`: read the file, count
its raw lines, make a single backend call on the whole content, extract
the fenced code, write the backup, overwrite the target, re-read the new
line count, and build the metrics dictionary.  Every exception is printed
and re-raised by the `except` clause (lines 126-128), so failures
propagate exactly as they occur; writes that have already happened stay. -/
def process_file_api (fs : FsState)
    (llm : List Char → Except RunErr (List Char))
    (backupOk : Bool) (backupLeft : Option (List Char)) :
    FsState × Except RunErr Metrics :=
  let code := fs.target
  let originalLoc := pyReadlinesCount code
  match llm code with
  | Except.error e => (fs, Except.error e)
  | Except.ok response =>
    match extract_code response with
    | Except.error _ => (fs, Except.error RunErr.extraction)
    | Except.ok debloatedCode =>
      if backupOk then
        let fs1 : FsState := { target := debloatedCode, backup := some code }
        let newLoc := pyReadlinesCount debloatedCode
        match reductionPct originalLoc newLoc with
        | none => (fs1, Except.error RunErr.divByZero)
        | some r => (fs1, Except.ok ⟨originalLoc, newLoc, r⟩)
      else
        ({ fs with backup := backupLeft }, Except.error RunErr.backupWrite)

/-! ## Concrete sanity checks -/

example : extract_local "say ```num = 1``` bye".data = "um = 1".data := by decide

example : extract_local "no fences here".data = "no fences here".data := by decide

example : extract_code "x ```python\ncode\n``` y".data = Except.ok "code".data := rfl

example : extract_code "x ```code``` y".data = Except.error extractErrMsg := rfl

example : count_loc [] = 0 := by decide

example : count_loc "   # note".data = 0 := by decide

example : count_loc "a = 1\n\n// c\nb = 2".data = 2 := by decide

example : pyReadlinesCount "a\nb".data = 2 := by decide

example : pyReadlinesCount "a\n".data = 1 := by decide

example : pyReadlinesCount "   # note".data = 1 := by decide

example : pyRange 9 4 = [0, 4, 8] := by decide

example : pyRange 0 4 = [] := by decide

example : pyJoin ['\n'] ["a".data, "b".data] = "a\nb".data := by decide

example : pyJoin ['\n'] [] = [] := by decide

example : reductionPct 0 0 = none := by decide

example : reductionPct 10 2 = some 80 := by
  simp [reductionPct]
  norm_num

/-! ## Helper lemmas -/

lemma lt_ceilDiv_iff {k n s : Nat} (hs : 0 < s) :
    k < (n + s - 1) / s ↔ s * k < n := by
  have h := @Nat.div_le_iff_le_mul_add_pred (n + s - 1) s k hs
  omega

lemma mem_pyRange {n s i : Nat} (hs : 0 < s) :
    i ∈ pyRange n s ↔ i < n ∧ i % s = 0 := by
  simp only [pyRange, List.mem_map, List.mem_range]
  constructor
  · rintro ⟨k, hk, rfl⟩
    refine ⟨?_, Nat.mul_mod_left k s⟩
    have h1 := (lt_ceilDiv_iff hs).mp hk
    have h2 : k * s = s * k := Nat.mul_comm k s
    omega
  · rintro ⟨hin, hmod⟩
    refine ⟨i / s, ?_, Nat.div_mul_cancel (Nat.dvd_of_mod_eq_zero hmod)⟩
    rw [lt_ceilDiv_iff hs]
    have h1 := Nat.div_mul_cancel (Nat.dvd_of_mod_eq_zero hmod)
    have h2 : i / s * s = s * (i / s) := Nat.mul_comm (i / s) s
    omega

lemma pyRange_9000_2048 : pyRange 9000 2048 = [0, 2048, 4096, 6144, 8192] := by
  decide

/-- The first occurrence of `sep` in `p ++ sep ++ r` is at `p.length`
whenever no character of `p` equals the head character of `sep`. -/
lemma findSub_block (sep : List Char) (c0 : Char) (tl : List Char)
    (hsep : sep = c0 :: tl) (p r : List Char) (hp : ∀ a ∈ p, a ≠ c0) :
    findSub sep (p ++ (sep ++ r)) = some p.length := by
  induction p with
  | nil =>
    subst hsep
    simp [findSub]
  | cons a p ih =>
    have ha : a ≠ c0 := hp a (List.mem_cons_self a p)
    have hp' : ∀ b ∈ p, b ≠ c0 := fun b hb => hp b (List.mem_cons_of_mem a hb)
    have hnp : sep.isPrefixOf (a :: (p ++ (sep ++ r))) = false := by
      subst hsep
      simp only [List.isPrefixOf, Bool.and_eq_false_iff]
      left
      simpa using fun h => ha h.symm
    simp [findSub, hnp, ih hp']

/-- If `sep` does not occur in `s`, neither does any extension of `sep`. -/
lemma findSub_none_mono (sep sep' s : List Char) (hps : sep <+: sep')
    (h : findSub sep s = none) : findSub sep' s = none := by
  induction s with
  | nil =>
    have hne : ¬sep.isEmpty = true := by
      intro he
      simp [findSub, he] at h
    have : ¬sep'.isEmpty = true := by
      intro he'
      rcases hps with ⟨t, ht⟩
      have : sep' = [] := by simpa [List.isEmpty_iff] using he'
      subst this
      have : sep = [] := (List.append_eq_nil.mp ht).1
      exact hne (by simp [this])
    simp [findSub, this]
  | cons a rest ih =>
    by_cases hb : sep.isPrefixOf (a :: rest) = true
    · simp [findSub, hb] at h
    · have h' : findSub sep rest = none := by
        simp only [findSub, Bool.not_eq_true] at h ⊢
        rw [if_neg (by simp [hb])] at h
        simpa using h
      have hb' : ¬sep'.isPrefixOf (a :: rest) = true := by
        intro hpre'
        exact hb (List.isPrefixOf_iff_prefix.mpr
          (hps.trans (List.isPrefixOf_iff_prefix.mp hpre')))
      simp only [findSub]
      rw [if_neg hb', ih h']
      rfl

lemma drop_two_append (p q r : List Char) :
    (p ++ (q ++ r)).drop (p.length + q.length) = r := by
  rw [← List.append_assoc, ← List.length_append, List.drop_left]

/-- If any chunk in the list makes `f` fail, the sequential loop fails. -/
lemma runChunks_isError_of_mem {f : List Char → Except RunErr (List Char)}
    {cs : List (List Char)} {c : List Char} {e : RunErr}
    (hc : c ∈ cs) (he : f c = Except.error e) :
    ∃ e', runChunks f cs = Except.error e' := by
  induction cs with
  | nil => cases hc
  | cons d ds ih =>
    rcases hfd : f d with e' | r
    · exact ⟨e', by simp [runChunks, hfd]⟩
    · rcases List.mem_cons.mp hc with rfl | hmem
      · rw [he] at hfd
        cases hfd
      · rcases ih hmem with ⟨e', hrun⟩
        exact ⟨e', by simp [runChunks, hfd, hrun]⟩

/-! ## Claim theorems -/

/-- C6: chunk planning uses stride `window_size // 2` and emits chunks
spanning `[offset, offset + window_size)` clipped to the text length,
starting at offset 0 (the offsets are exactly the multiples of the stride
below the text length, so iteration stops once the offset reaches the
length); for a 9000-character input and window 4096 it emits exactly 5
chunks at offsets 0, 2048, 4096, 6144, 8192, the trailing chunks clipped
to the text end (lengths 2856 and 808). -/
theorem chunk_plan_offsets_C6 :
    pyRange 9000 (CHUNK_SIZE / 2) = [0, 2048, 4096, 6144, 8192] ∧
    (∀ n s i, 0 < s → (i ∈ pyRange n s ↔ i < n ∧ i % s = 0)) ∧
    (∀ code : List Char, chunksOf code CHUNK_SIZE =
      (pyRange code.length (CHUNK_SIZE / 2)).map
        (fun i => (code.drop i).take CHUNK_SIZE)) ∧
    (∀ code : List Char, code.length = 9000 →
      (chunksOf code CHUNK_SIZE).map List.length =
        [4096, 4096, 4096, 2856, 808]) := by
  refine ⟨pyRange_9000_2048, fun n s i hs => mem_pyRange hs,
    fun code => rfl, ?_⟩
  intro code hlen
  have h2048 : CHUNK_SIZE / 2 = 2048 := rfl
  simp only [chunksOf, hlen, h2048, pyRange_9000_2048, List.map_cons,
    List.map_nil, List.length_take, List.length_drop]
  norm_num [CHUNK_SIZE]

/-- Witness for C6 at a concrete 9000-character input. -/
theorem chunk_plan_offsets_C6_witness :
    (chunksOf (List.replicate 9000 'a') CHUNK_SIZE).map List.length =
      [4096, 4096, 4096, 2856, 808] :=
  chunk_plan_offsets_C6.2.2.2 (List.replicate 9000 'a')
    (by rw [List.length_replicate])

/-- C7: for every text `T` and window size `w > 1`, the union of the
(clipped) chunk spans equals `[0, T.length)`, and the planned sequence is
a pure function of `(T, w)`, hence reproducible across repeated calls. -/
theorem chunk_plan_covers_C7 (T : List Char) (w : Nat) (hw : 1 < w) :
    (∀ p : Nat, p < T.length ↔
      ∃ i ∈ pyRange T.length (w / 2), i ≤ p ∧ p < min (i + w) T.length) ∧
    chunksOf T w = chunksOf T w := by
  have hs : 0 < w / 2 := Nat.div_pos (by omega) (by omega)
  constructor
  · intro p
    constructor
    · intro hp
      have hmod := Nat.div_add_mod p (w / 2)
      have hlt : p % (w / 2) < w / 2 := Nat.mod_lt p hs
      have hsw : w / 2 ≤ w := Nat.div_le_self w 2
      refine ⟨w / 2 * (p / (w / 2)),
        (mem_pyRange hs).mpr ⟨by omega, Nat.mul_mod_right _ _⟩, by omega, ?_⟩
      exact Nat.lt_min.mpr ⟨by omega, hp⟩
    · rintro ⟨i, -, -, hpm⟩
      exact lt_of_lt_of_le hpm (min_le_right _ _)
  · rfl

/-- Witness for C7 at `T = "abc"`, `w = 4`, position 2. -/
theorem chunk_plan_covers_C7_witness :
    2 < List.length ['a', 'b', 'c'] ↔
      ∃ i ∈ pyRange (List.length ['a', 'b', 'c']) (4 / 2),
        i ≤ 2 ∧ 2 < min (i + 4) (List.length ['a', 'b', 'c']) :=
  (chunk_plan_covers_C7 ['a', 'b', 'c'] 4 (by omega)).1 2

/-- C9: on the empty source text the local variant plans zero chunks, the
chunk loop runs zero iterations (the result of the whole run does not
depend on the backend at all), the processed-chunk list is empty, and the
joined `new_code` is the empty string. -/
theorem empty_input_no_chunks_C9 :
    chunksOf [] CHUNK_SIZE = [] ∧
    (∀ f, runChunks f (chunksOf [] CHUNK_SIZE) = Except.ok []) ∧
    pyJoin ['\n'] [] = [] ∧
    (∀ b llm llm' ok bl, process_file_local ⟨[], b⟩ llm ok bl =
        process_file_local ⟨[], b⟩ llm' ok bl) := by
  refine ⟨rfl, fun _ => rfl, rfl, fun b llm llm' ok bl => ?_⟩
  have h : chunksOf [] CHUNK_SIZE = [] := rfl
  simp [process_file_local, h, runChunks]

/-- C10: the API variant's `count_loc` maps every failed file read
(`FileNotFoundError` or any other exception) to `None` instead of
propagating, and a successful read to the raw line count. -/
theorem count_loc_api_none_on_error_C10 :
    (∀ e, count_loc_api (Except.error e) = none) ∧
    (∀ s, count_loc_api (Except.ok s) = some (pyReadlinesCount s)) :=
  ⟨fun _ => rfl, fun _ => rfl⟩

/-- Counterexample to C8 as stated: on the text `"   # note"` the API
variant's line counter returns 1 (it counts every physical line,
comments included), not the significant-line count 0. -/
theorem count_loc_variants_differ_C8 :
    count_loc_api (Except.ok "   # note".data) = some 1 ∧
    count_loc "   # note".data = 0 ∧
    count_loc_api (Except.ok "   # note".data) ≠
      some (count_loc "   # note".data) := by
  refine ⟨rfl, by decide, by decide⟩

/-- C8 (amended): the LOCAL variant's `count_loc` returns the number of
lines that, after trimming surrounding whitespace, are non-empty and do
not start with `#` or `//` (hence it is a natural number, the empty string
counts 0, and a whitespace-prefixed comment line is not counted); the API
variant's `count_loc` instead returns the raw physical line count of the
file, comments and blanks included. -/
theorem count_loc_significant_C8 :
    (∀ t, count_loc t = significantLineCount t) ∧
    count_loc [] = 0 ∧
    count_loc "   # note".data = 0 ∧
    (∀ t, 0 ≤ count_loc t) ∧
    (∀ s, count_loc_api (Except.ok s) = some (pyReadlinesCount s)) := by
  refine ⟨fun t => ?_, by decide, by decide, fun _ => Nat.zero_le _,
    fun _ => rfl⟩
  unfold count_loc significantLineCount
  rw [List.countP_eq_length_filter]
  rfl

/-- C4 is violated by the code: on an empty input file `original_loc = 0`
and `((original_loc - new_loc)/original_loc)*100` raises
`ZeroDivisionError` (after the backup and target writes), so the run exits
with an error instead of reporting `reduction_pct = 0`. -/
theorem empty_file_div_by_zero_C4 :
    (∀ llm bl, (process_file_local ⟨[], none⟩ llm true bl).2 =
        Except.error RunErr.divByZero) ∧
    reductionPct 0 0 = none :=
  ⟨fun _ _ => rfl, rfl⟩

/-- C1: in both variants the backup write strictly precedes any mutation
of the target: when the backup write fails the target's content after the
run is byte-identical to its content before the run, and whenever the
target has been mutated at all, the backup holds an exact copy of the
original text. -/
theorem backup_before_mutation_C1 :
    (∀ fs llm bl, (process_file_local fs llm false bl).1.target = fs.target) ∧
    (∀ fs llm bl, (process_file_api fs llm false bl).1.target = fs.target) ∧
    (∀ fs llm ok bl, (process_file_local fs llm ok bl).1.target ≠ fs.target →
        (process_file_local fs llm ok bl).1.backup = some fs.target) ∧
    (∀ fs llm ok bl, (process_file_api fs llm ok bl).1.target ≠ fs.target →
        (process_file_api fs llm ok bl).1.backup = some fs.target) := by
  refine ⟨?_, ?_, ?_, ?_⟩
  · intro fs llm bl
    rcases h : runChunks (process_chunk llm) (chunksOf fs.target CHUNK_SIZE)
      with e | rs
    · simp [process_file_local, h]
    · simp [process_file_local, h]
  · intro fs llm bl
    rcases hl : llm fs.target with e | resp
    · simp [process_file_api, hl]
    · rcases he : extract_code resp with m | code
      · simp [process_file_api, hl, he]
      · simp [process_file_api, hl, he]
  · intro fs llm ok bl hne
    rcases h : runChunks (process_chunk llm) (chunksOf fs.target CHUNK_SIZE)
      with e | rs
    · exact absurd (by simp [process_file_local, h]) hne
    · cases ok
      · exact absurd (by simp [process_file_local, h]) hne
      · simp [process_file_local, h]
        split <;> rfl
  · intro fs llm ok bl hne
    rcases hl : llm fs.target with e | resp
    · exact absurd (by simp [process_file_api, hl]) hne
    · rcases he : extract_code resp with m | code
      · exact absurd (by simp [process_file_api, hl, he]) hne
      · cases ok
        · exact absurd (by simp [process_file_api, hl, he]) hne
        · simp [process_file_api, hl, he]
          split <;> rfl

/-- Witness for C1: a successful run that rewrote the target left the
backup equal to the original content. -/
theorem backup_before_mutation_C1_witness :
    (process_file_local ⟨"old".data, none⟩ (fun _ => Except.ok "x".data)
        true none).1.backup = some "old".data :=
  backup_before_mutation_C1.2.2.1 ⟨"old".data, none⟩
    (fun _ => Except.ok "x".data) true none (by decide)

/-- C2: a backend failure on any chunk (local variant), or a backend or
extraction failure on the single whole-file call (API variant), makes the
whole run abort with that error: the file-system state is exactly the
pre-run state — the target unchanged and no backup created. -/
theorem chunk_failure_aborts_C2 :
    (∀ fs llm ok bl,
      (∃ c ∈ chunksOf fs.target CHUNK_SIZE, ∃ e,
          llm (buildPrompt c) = Except.error e) →
      (process_file_local fs llm ok bl).1 = fs ∧
        ∃ e, (process_file_local fs llm ok bl).2 = Except.error e) ∧
    (∀ fs llm ok bl e, llm fs.target = Except.error e →
      process_file_api fs llm ok bl = (fs, Except.error e)) ∧
    (∀ fs llm ok bl resp m, llm fs.target = Except.ok resp →
      extract_code resp = Except.error m →
      process_file_api fs llm ok bl = (fs, Except.error RunErr.extraction)) := by
  refine ⟨?_, ?_, ?_⟩
  · rintro fs llm ok bl ⟨c, hc, e, hllm⟩
    have hpc : process_chunk llm c = Except.error e := by
      simp [process_chunk, hllm]
    obtain ⟨e', hrun⟩ := runChunks_isError_of_mem hc hpc
    exact ⟨by simp [process_file_local, hrun],
      ⟨e', by simp [process_file_local, hrun]⟩⟩
  · intro fs llm ok bl e hl
    simp [process_file_api, hl]
  · intro fs llm ok bl resp m hl he
    simp [process_file_api, hl, he]

/-- Witness for C2: a backend that always fails leaves the file system
exactly as it was. -/
theorem chunk_failure_aborts_C2_witness :
    (process_file_local ⟨"abc".data, none⟩
        (fun _ => Except.error RunErr.backend) true none).1 =
      ⟨"abc".data, none⟩ ∧
    ∃ e, (process_file_local ⟨"abc".data, none⟩
        (fun _ => Except.error RunErr.backend) true none).2 =
      Except.error e :=
  chunk_failure_aborts_C2.1 ⟨"abc".data, none⟩
    (fun _ => Except.error RunErr.backend) true none
    ⟨"abc".data, by decide, RunErr.backend, rfl⟩

/-- Counterexample to C3 as stated: the local variant does NOT fail on a
response with no triple-backtick pair — it passes the raw response text
through unchanged — and on an unclosed fence it silently returns the text
after the opening fence. -/
theorem raw_passthrough_C3_counterexample :
    extract_local "no code fence here".data = "no code fence here".data ∧
    extract_local ("start ".data ++ ticks ++ " unclosed".data) =
      "unclosed".data := by
  constructor <;> decide

/-- C3 (amended): in the API variant, extraction fails with the
`ValueError` both on a response containing no triple-backtick marker at
all and on a response whose opening ```python fence is never closed, so
raw text is never passed through there; the local variant instead returns
the raw response unchanged when no marker is present. -/
theorem extraction_failure_api_C3 :
    (∀ s : List Char, findSub ticks s = none →
      extract_code s = Except.error extractErrMsg ∧ extract_local s = s) ∧
    (∀ p r : List Char, (∀ a ∈ p, a ≠ tick) → findSub ticks r = none →
      extract_code (p ++ openTag ++ r) = Except.error extractErrMsg) := by
  constructor
  · intro s h
    have hop : findSub openTag s = none :=
      findSub_none_mono ticks openTag s ⟨"python".data, rfl⟩ h
    constructor
    · simp [extract_code, hop]
    · simp [extract_local, h]
  · intro p r hp hrest
    have hfind : findSub openTag (p ++ (openTag ++ r)) = some p.length :=
      findSub_block openTag tick [tick, tick, 'p', 'y', 't', 'h', 'o', 'n']
        rfl p r hp
    have hdrop : (p ++ (openTag ++ r)).drop (p.length + openTag.length) = r :=
      drop_two_append p openTag r
    rw [List.append_assoc]
    simp [extract_code, hfind, hdrop, hrest]

/-- Witness for C3 (amended) on a fence-free response. -/
theorem extraction_failure_api_C3_witness :
    extract_code "just words".data = Except.error extractErrMsg ∧
    extract_local "just words".data = "just words".data :=
  extraction_failure_api_C3.1 "just words".data (by decide)

/-- Counterexample to C5 as stated: on the well-formed response
`"say ```num = 1``` bye"` the local variant returns `"um = 1"` — the
`lstrip('python\n')` call eats the leading `n` of the code — not the
trimmed code `"num = 1"`; and the API variant rejects the response
outright because the fence lacks a `python` language tag. -/
theorem extract_trim_C5_counterexample :
    extract_local "say ```num = 1``` bye".data = "um = 1".data ∧
    "um = 1".data ≠ "num = 1".data ∧
    extract_code "say ```num = 1``` bye".data =
      Except.error extractErrMsg := by
  refine ⟨by decide, by decide, rfl⟩

/-- C5 (amended): for every prefix, CODE and suffix such that the prefix
and CODE contain no backtick, the local variant extracts the content
between the first two fences and returns it trimmed and with ALL leading
characters drawn from the set `p,y,t,h,o,n,newline` removed (not merely a
language tag); the API variant requires the opening fence to carry the
literal `python` tag and then returns the first tagged block trimmed. -/
theorem extract_wellformed_C5 :
    (∀ p c s : List Char, (∀ a ∈ p, a ≠ tick) → (∀ a ∈ c, a ≠ tick) →
      extract_local (p ++ ticks ++ c ++ ticks ++ s) =
        lstripSet pythonChars (trimL c)) ∧
    (∀ p c s : List Char, (∀ a ∈ p, a ≠ tick) → (∀ a ∈ c, a ≠ tick) →
      extract_code (p ++ openTag ++ c ++ ticks ++ s) =
        Except.ok (trimL c)) := by
  constructor
  · intro p c s hp hc
    have h1 : findSub ticks (p ++ (ticks ++ (c ++ (ticks ++ s)))) =
        some p.length :=
      findSub_block ticks tick [tick, tick] rfl p (c ++ (ticks ++ s)) hp
    have h2 : findSub ticks (c ++ (ticks ++ s)) = some c.length :=
      findSub_block ticks tick [tick, tick] rfl c s hc
    have hdrop : (p ++ (ticks ++ (c ++ (ticks ++ s)))).drop
        (p.length + ticks.length) = c ++ (ticks ++ s) :=
      drop_two_append p ticks (c ++ (ticks ++ s))
    have htake : (c ++ (ticks ++ s)).take c.length = c :=
      List.take_left c (ticks ++ s)
    simp only [List.append_assoc]
    simp [extract_local, h1, hdrop, h2, htake]
  · intro p c s hp hc
    have h1 : findSub openTag (p ++ (openTag ++ (c ++ (ticks ++ s)))) =
        some p.length :=
      findSub_block openTag tick [tick, tick, 'p', 'y', 't', 'h', 'o', 'n']
        rfl p (c ++ (ticks ++ s)) hp
    have h2 : findSub ticks (c ++ (ticks ++ s)) = some c.length :=
      findSub_block ticks tick [tick, tick] rfl c s hc
    have hdrop : (p ++ (openTag ++ (c ++ (ticks ++ s)))).drop
        (p.length + openTag.length) = c ++ (ticks ++ s) :=
      drop_two_append p openTag (c ++ (ticks ++ s))
    have htake : (c ++ (ticks ++ s)).take c.length = c :=
      List.take_left c (ticks ++ s)
    simp only [List.append_assoc]
    simp [extract_code, h1, hdrop, h2, htake]

/-- Witness for C5 (amended) at a concrete well-formed response. -/
theorem extract_wellformed_C5_witness :
    extract_local ("hi ".data ++ ticks ++ "x = 1".data ++ ticks ++
        " bye".data) = lstripSet pythonChars (trimL "x = 1".data) :=
  extract_wellformed_C5.1 "hi ".data "x = 1".data " bye".data
    (by decide) (by decide)

end Debloat

